import Mathlib

/-!
Shallow embedding of `src/app.py` (sabre): a Flask backend for a read-aloud
audio-book recorder.  Strings are Lean `String`s; byte payloads are `List Nat`;
the Firebase storage bucket is modelled as an association list from path to
blob, plus a flag recording whether a bucket is configured at all
(`bucket is not None` in `app.py`).  Request handlers are written as pure
state-passing functions taking the session id (produced by `get_session_id`
in the source) as an explicit argument.
-/

namespace App

/-- Byte payloads (each entry intended to be below 256). -/
abbrev Bytes := List Nat

/-- A blob stored in the bucket: either raw audio bytes, or the JSON
serialization of a filename-to-sentence mapping.  CPython `json.dumps` /
`json.load` round-trip a string-keyed dict preserving insertion order, so the
serialized form is modelled by the entry list itself. -/
inductive BlobData where
  | audio (bytes : Bytes)
  | mappingJson (entries : List (String × String))
deriving DecidableEq, Repr

/-- The Firebase storage state of `app.py`. -/
structure FirebaseState where
  configured : Bool
  store : List (String × BlobData)
deriving DecidableEq, Repr

/-- Key-value lookup in the bucket. -/
def storeGet : List (String × BlobData) → String → Option BlobData
  | [], _ => none
  | (q, d) :: rest, p => if q = p then some d else storeGet rest p

/-- Key-value overwrite in the bucket (`blob.upload_from_file`). -/
def storeSet : List (String × BlobData) → String → BlobData → List (String × BlobData)
  | [], p, d => [(p, d)]
  | (q, e) :: rest, p, d => if q = p then (p, d) :: rest else (q, e) :: storeSet rest p d

/-- Key removal in the bucket (`blob.delete`; the `blob.exists()` guard in the
source is observationally the same as unconditional removal). -/
def storeDelete : List (String × BlobData) → String → List (String × BlobData)
  | [], _ => []
  | (q, d) :: rest, p =>
    if q = p then storeDelete rest p else (q, d) :: storeDelete rest p

/-- `upload_to_firebase` from `app.py`: writes the blob and reports success if
the bucket is configured, otherwise does nothing and reports failure. -/
def upload_to_firebase (st : FirebaseState) (file_data : BlobData) (blob_path : String) :
    Bool × FirebaseState :=
  if st.configured then
    (true, { st with store := storeSet st.store blob_path file_data })
  else
    (false, st)

/-- `download_from_firebase` from `app.py`. -/
def download_from_firebase (st : FirebaseState) (blob_path : String) : Option BlobData :=
  if st.configured then storeGet st.store blob_path else none

/-- `delete_from_firebase` from `app.py`. -/
def delete_from_firebase (st : FirebaseState) (blob_path : String) : FirebaseState :=
  if st.configured then { st with store := storeDelete st.store blob_path } else st

/-- `get_user_mapping_path` from `app.py`. -/
def get_user_mapping_path (session_id : String) : String :=
  session_id ++ "/mapping.json"

/-- `get_user_audio_path` from `app.py`. -/
def get_user_audio_path (session_id : String) (filename : String) : String :=
  session_id ++ "/" ++ filename

/-- `load_user_mappings` from `app.py`; `none` models the `json.load`
exception raised on a payload that is not a serialized mapping. -/
def load_user_mappings (st : FirebaseState) (session_id : String) :
    Option (List (String × String)) :=
  match download_from_firebase st (get_user_mapping_path session_id) with
  | some (BlobData.mappingJson m) => some m
  | some (BlobData.audio _) => none
  | none => some []

/-- `save_user_mappings` from `app.py`: serializes the mapping and overwrites
the stored blob, a no-op when no bucket is configured. -/
def save_user_mappings (st : FirebaseState) (session_id : String)
    (mappings : List (String × String)) : FirebaseState :=
  if st.configured then
    { st with
      store := storeSet st.store (get_user_mapping_path session_id)
        (BlobData.mappingJson mappings) }
  else st

/-- Python dict assignment `d[k] = v`: updates the value in place if the key
already exists (keeping its position), otherwise appends a new entry. -/
def dictSet : List (String × String) → String → String → List (String × String)
  | [], k, v => [(k, v)]
  | (k1, v1) :: rest, k, v =>
    if k1 = k then (k, v) :: rest else (k1, v1) :: dictSet rest k v

/-! ### MD5 (`hashlib.md5` as used by `upload_audio`)

An executable model of the MD5 digest over byte lists, with the hex rendering
used by `md5hash.hexdigest()`.  Words are `Nat`s kept below `2 ^ 32` by
explicit reduction. -/

/-- Rotate a 32-bit word left by `s` bits. -/
def rotl32 (x s : Nat) : Nat :=
  ((x <<< s) ||| (x >>> (32 - s))) % 4294967296

/-- The 64 MD5 sine-derived round constants. -/
def md5K : List Nat :=
  [0xd76aa478, 0xe8c7b756, 0x242070db, 0xc1bdceee,
   0xf57c0faf, 0x4787c62a, 0xa8304613, 0xfd469501,
   0x698098d8, 0x8b44f7af, 0xffff5bb1, 0x895cd7be,
   0x6b901122, 0xfd987193, 0xa679438e, 0x49b40821,
   0xf61e2562, 0xc040b340, 0x265e5a51, 0xe9b6c7aa,
   0xd62f105d, 0x02441453, 0xd8a1e681, 0xe7d3fbc8,
   0x21e1cde6, 0xc33707d6, 0xf4d50d87, 0x455a14ed,
   0xa9e3e905, 0xfcefa3f8, 0x676f02d9, 0x8d2a4c8a,
   0xfffa3942, 0x8771f681, 0x6d9d6122, 0xfde5380c,
   0xa4beea44, 0x4bdecfa9, 0xf6bb4b60, 0xbebfbc70,
   0x289b7ec6, 0xeaa127fa, 0xd4ef3085, 0x04881d05,
   0xd9d4d039, 0xe6db99e5, 0x1fa27cf8, 0xc4ac5665,
   0xf4292244, 0x432aff97, 0xab9423a7, 0xfc93a039,
   0x655b59c3, 0x8f0ccc92, 0xffeff47d, 0x85845dd1,
   0x6fa87e4f, 0xfe2ce6e0, 0xa3014314, 0x4e0811a1,
   0xf7537e82, 0xbd3af235, 0x2ad7d2bb, 0xeb86d391]

/-- The 64 MD5 per-round left-rotation amounts. -/
def md5S : List Nat :=
  [7, 12, 17, 22, 7, 12, 17, 22, 7, 12, 17, 22, 7, 12, 17, 22,
   5, 9, 14, 20, 5, 9, 14, 20, 5, 9, 14, 20, 5, 9, 14, 20,
   4, 11, 16, 23, 4, 11, 16, 23, 4, 11, 16, 23, 4, 11, 16, 23,
   6, 10, 15, 21, 6, 10, 15, 21, 6, 10, 15, 21, 6, 10, 15, 21]

/-- The MD5 round mixing function for round `i`. -/
def md5F (i b c d : Nat) : Nat :=
  if i < 16 then (b &&& c) ||| ((b ^^^ 0xffffffff) &&& d)
  else if i < 32 then (d &&& b) ||| ((d ^^^ 0xffffffff) &&& c)
  else if i < 48 then b ^^^ c ^^^ d
  else c ^^^ (b ||| (d ^^^ 0xffffffff))

/-- The MD5 message-word index for round `i`. -/
def md5G (i : Nat) : Nat :=
  if i < 16 then i
  else if i < 32 then (5 * i + 1) % 16
  else if i < 48 then (3 * i + 5) % 16
  else (7 * i) % 16

/-- Render `n` as `count` little-endian bytes. -/
def toLEBytes (count n : Nat) : Bytes :=
  (List.range count).map (fun i => (n >>> (8 * i)) % 256)

/-- MD5 padding: append `0x80`, zero bytes up to 56 mod 64, then the original
bit length as eight little-endian bytes. -/
def md5pad (msg : Bytes) : Bytes :=
  let len := msg.length
  msg ++ [0x80] ++ List.replicate ((119 - len % 64) % 64) 0
      ++ toLEBytes 8 ((len * 8) % 18446744073709551616)

/-- The `j`-th little-endian 32-bit word of a 64-byte chunk. -/
def leWord (chunk : Bytes) (j : Nat) : Nat :=
  chunk.getD (4 * j) 0 + 256 * chunk.getD (4 * j + 1) 0
    + 65536 * chunk.getD (4 * j + 2) 0 + 16777216 * chunk.getD (4 * j + 3) 0

/-- One of the 64 MD5 rounds applied to the running `(a, b, c, d)` state. -/
def md5Step (chunk : Bytes) (s : Nat × Nat × Nat × Nat) (i : Nat) :
    Nat × Nat × Nat × Nat :=
  let (a, b, c, d) := s
  let f := (md5F i b c d + a + md5K.getD i 0 + leWord chunk (md5G i)) % 4294967296
  (d, (b + rotl32 f (md5S.getD i 0)) % 4294967296, b, c)

/-- Process one 64-byte chunk, folding the 64 rounds and re-adding the
incoming state. -/
def md5Chunk (h : Nat × Nat × Nat × Nat) (chunk : Bytes) : Nat × Nat × Nat × Nat :=
  let (a0, b0, c0, d0) := h
  let (a, b, c, d) := (List.range 64).foldl (md5Step chunk) h
  ((a0 + a) % 4294967296, (b0 + b) % 4294967296,
   (c0 + c) % 4294967296, (d0 + d) % 4294967296)

/-- Split a byte list into 64-byte chunks. -/
def chunks64 (l : Bytes) : List Bytes :=
  if l = [] then []
  else l.take 64 :: chunks64 (l.drop 64)
termination_by l.length
decreasing_by
  rename_i h
  have hlen : 0 < l.length := List.length_pos.mpr h
  simp only [List.length_drop]
  omega

/-- The MD5 digest of a byte list, as the four little-endian state words. -/
def md5Digest (msg : Bytes) : Nat × Nat × Nat × Nat :=
  (chunks64 (md5pad msg)).foldl md5Chunk
    (0x67452301, 0xefcdab89, 0x98badcfe, 0x10325476)

/-- Lowercase hex digit. -/
def hexDigit (n : Nat) : Char :=
  if n < 10 then Char.ofNat (48 + n) else Char.ofNat (87 + n)

/-- Two lowercase hex digits of a byte. -/
def byteToHex (b : Nat) : List Char :=
  [hexDigit (b / 16), hexDigit (b % 16)]

/-- Eight hex digits of a 32-bit word rendered in little-endian byte order. -/
def wordToHexLE (w : Nat) : List Char :=
  byteToHex (w % 256) ++ byteToHex (w / 256 % 256)
    ++ byteToHex (w / 65536 % 256) ++ byteToHex (w / 16777216 % 256)

/-- `hashlib.md5(bytes).hexdigest()`. -/
def md5hexBytes (msg : Bytes) : String :=
  let q := md5Digest msg
  String.mk (wordToHexLE q.1 ++ wordToHexLE q.2.1
    ++ wordToHexLE q.2.2.1 ++ wordToHexLE q.2.2.2)

/-- UTF-8 encoding of one character (`str.encode` acts per code point). -/
def utf8EncodeCharBytes (c : Char) : Bytes :=
  let n := c.toNat
  if n < 128 then [n]
  else if n < 2048 then [192 ||| (n >>> 6), 128 ||| (n &&& 63)]
  else if n < 65536 then
    [224 ||| (n >>> 12), 128 ||| ((n >>> 6) &&& 63), 128 ||| (n &&& 63)]
  else
    [240 ||| (n >>> 18), 128 ||| ((n >>> 12) &&& 63),
     128 ||| ((n >>> 6) &&& 63), 128 ||| (n &&& 63)]

/-- `sentence.encode()`: UTF-8 bytes of a string. -/
def utf8Bytes (s : String) : Bytes :=
  s.data.flatMap utf8EncodeCharBytes

/-- `hashlib.md5(sentence.encode()).hexdigest()`. -/
def md5hex (s : String) : String :=
  md5hexBytes (utf8Bytes s)

/-- The audio filename derived in `upload_audio`:
`f"\x7bmd5hash.hexdigest()\x7d.webm"`. -/
def audioFilename (sentence : String) : String :=
  md5hex sentence ++ ".webm"

/-! ### The line normalization of the `/upload-sentences` handler

Python string text is modelled as `List Char`; `str.split` on a single
newline and `str.strip` are translated directly.  `str.strip()` with no
argument removes Python whitespace at both ends; the model covers the ASCII
whitespace characters, which is what every claim exercises. -/

/-- The ASCII whitespace characters stripped by Python `str.strip()`. -/
def isPyWs (c : Char) : Bool :=
  c = ' ' || c = '\t' || c = '\n' || c = '\r' || c = '\x0b' || c = '\x0c'

/-- Python `text.split('\n')`: splits at every newline, keeping empty
segments (so `"a\n"` yields `["a", ""]` and `""` yields `[""]`). -/
def splitNl : List Char → List (List Char)
  | [] => [[]]
  | c :: rest =>
    if c = '\n' then [] :: splitNl rest
    else
      match splitNl rest with
      | [] => [[c]]
      | l :: ls => (c :: l) :: ls

/-- Python `s.strip()` (restricted to ASCII whitespace): drop whitespace from
both ends. -/
def pyStrip (l : List Char) : List Char :=
  ((l.dropWhile isPyWs).reverse.dropWhile isPyWs).reverse

/-- The `/upload-sentences` handler body (`upload` in `app.py`): decode the
file, split on newlines, keep the stripped non-empty lines in order.  The
write of `LOCAL_SENTENCES_FILE` is a local filesystem side effect outside the
model; the handler returns the list (serialized with `jsonify`). -/
def upload (text : List Char) : List (List Char) :=
  let sentences := splitNl text
  (sentences.filter (fun s => pyStrip s ≠ [])).map pyStrip

/-! ### The `/upload-audio` and `/download-recordings` handlers -/

/-- The multipart form fields of a `/upload-audio` request.  `sentence_idx`
is accepted by the route but never read by the handler. -/
structure UploadAudioRequest where
  audio : Bytes
  sentence_text : String
  sentence_idx : Option String
deriving DecidableEq, Repr

/-- Content written into the ZIP archive: bytes read back from the store, or
a Python string written with `writestr`. -/
inductive ZipContent where
  | data (d : BlobData)
  | text (s : String)
deriving DecidableEq, Repr

/-- The observable HTTP response of a handler. -/
inductive Response where
  | ok (body : String)
  | notFound (body : String)
  | file (download_name : String) (entries : List (String × ZipContent))
  | serverError
deriving DecidableEq, Repr

/-- The `/upload-audio` handler (`upload_audio` in `app.py`): derive the
filename from the sentence text, upload the audio blob (the returned success
flag is discarded by the source), then load-upsert-save the mapping. -/
def upload_audio (st : FirebaseState) (session_id : String)
    (req : UploadAudioRequest) : Response × FirebaseState :=
  let filename := audioFilename req.sentence_text
  let audio_path := get_user_audio_path session_id filename
  -- the source discards the success flag returned by `upload_to_firebase`
  let st1 := (upload_to_firebase st (BlobData.audio req.audio) audio_path).2
  match load_user_mappings st1 session_id with
  | none => (Response.serverError, st1)
  | some mappings =>
    let mappings1 := dictSet mappings filename req.sentence_text
    let st2 := save_user_mappings st1 session_id mappings1
    (Response.ok "Audio received", st2)

/-- The TSV manifest text built by `download_recordings`. -/
def tsvOfMappings (mappings : List (String × String)) : String :=
  "audio_filename\tsentence\n"
    ++ String.intercalate "\n" (mappings.map (fun e => e.1 ++ "\t" ++ e.2))

/-- The per-entry loop of `download_recordings`: fetch each referenced blob;
when present, write it into the archive under its filename and delete it from
the store; when absent, skip it. -/
def packLoop (st : FirebaseState) (session_id : String) :
    List (String × String) → List (String × ZipContent) × FirebaseState
  | [] => ([], st)
  | (filename, _) :: rest =>
    let audio_path := get_user_audio_path session_id filename
    match download_from_firebase st audio_path with
    | some d =>
      let st1 := delete_from_firebase st audio_path
      let r := packLoop st1 session_id rest
      ((filename, ZipContent.data d) :: r.1, r.2)
    | none => packLoop st session_id rest

/-- The `/download-recordings` handler (`download_recordings` in `app.py`). -/
def download_recordings (st : FirebaseState) (session_id : String) :
    Response × FirebaseState :=
  match load_user_mappings st session_id with
  | none => (Response.serverError, st)
  | some mappings =>
    if mappings.isEmpty then (Response.notFound "No recordings found", st)
    else
      let tsv_content := tsvOfMappings mappings
      let r := packLoop st session_id mappings
      let st2 := delete_from_firebase r.2 (get_user_mapping_path session_id)
      (Response.file "recordings.zip"
        (r.1 ++ [("mapping.tsv", ZipContent.text tsv_content)]), st2)

/-! ### Basic facts about the store, paths and filenames -/

theorem storeGet_storeSet (s : List (String × BlobData)) (p q : String) (d : BlobData) :
    storeGet (storeSet s p d) q = if p = q then some d else storeGet s q := by
  induction s with
  | nil => simp [storeSet, storeGet]
  | cons e rest ih =>
    obtain ⟨k, v⟩ := e
    by_cases hkp : k = p
    · subst hkp
      by_cases hkq : k = q <;> simp [storeSet, storeGet, hkq]
    · have hpk : ¬p = k := fun h => hkp h.symm
      by_cases hkq : k = q
      · subst hkq
        simp [storeSet, storeGet, hkp, hpk]
      · simp [storeSet, storeGet, hkp, hkq, ih]

theorem storeGet_storeDelete (s : List (String × BlobData)) (p q : String) :
    storeGet (storeDelete s p) q = if p = q then none else storeGet s q := by
  induction s with
  | nil => simp [storeDelete, storeGet]
  | cons e rest ih =>
    obtain ⟨k, v⟩ := e
    by_cases hkp : k = p
    · subst hkp
      by_cases hkq : k = q
      · subst hkq
        simp [storeDelete, storeGet, ih]
      · simp [storeDelete, storeGet, hkq, ih]
    · have hpk : ¬p = k := fun h => hkp h.symm
      by_cases hkq : k = q
      · subst hkq
        simp [storeDelete, storeGet, hkp, hpk]
      · simp [storeDelete, storeGet, hkp, hkq, ih]

theorem string_eq_of_data_eq {s t : String} (h : s.data = t.data) : s = t :=
  congrArg String.mk h

theorem string_append_cancel (p a b : String) (h : p ++ a = p ++ b) : a = b := by
  have h2 : p.data ++ a.data = p.data ++ b.data := by
    have h3 := congrArg String.data h
    simpa [String.data_append] using h3
  exact string_eq_of_data_eq (List.append_cancel_left h2)

theorem get_user_audio_path_inj (sid a b : String)
    (h : get_user_audio_path sid a = get_user_audio_path sid b) : a = b :=
  string_append_cancel (sid ++ "/") a b h

theorem mapping_path_as_audio_path (sid : String) :
    get_user_mapping_path sid = get_user_audio_path sid "mapping.json" := by
  rw [get_user_mapping_path, get_user_audio_path, String.append_assoc]
  rfl

theorem wordToHexLE_length (w : Nat) : (wordToHexLE w).length = 8 := by
  simp [wordToHexLE, byteToHex]

theorem md5hex_data_length (s : String) : (md5hex s).data.length = 32 := by
  unfold md5hex md5hexBytes
  simp [wordToHexLE_length]

theorem audioFilename_ne_mappingJson (s : String) :
    audioFilename s ≠ "mapping.json" := by
  intro h
  have hd := congrArg (fun t => t.data.length) h
  simp only [audioFilename, String.data_append, List.length_append,
    md5hex_data_length] at hd
  simp at hd

theorem audio_path_ne_mapping_path (sid s : String) :
    get_user_audio_path sid (audioFilename s) ≠ get_user_mapping_path sid := by
  intro h
  rw [mapping_path_as_audio_path] at h
  exact audioFilename_ne_mappingJson s (get_user_audio_path_inj sid _ _ h)

theorem delete_configured (st : FirebaseState) (p : String) :
    (delete_from_firebase st p).configured = st.configured := by
  unfold delete_from_firebase
  split <;> rfl

theorem storeGet_delete_none (st : FirebaseState) (q p : String)
    (h : storeGet st.store p = none) :
    storeGet (delete_from_firebase st q).store p = none := by
  unfold delete_from_firebase
  split
  · rw [storeGet_storeDelete]
    split
    · rfl
    · exact h
  · exact h

theorem storeGet_delete_ne (st : FirebaseState) (q p : String) (hne : q ≠ p) :
    storeGet (delete_from_firebase st q).store p = storeGet st.store p := by
  unfold delete_from_firebase
  split
  · rw [storeGet_storeDelete, if_neg hne]
  · rfl

theorem download_delete_ne (st : FirebaseState) (q p : String) (hne : q ≠ p) :
    download_from_firebase (delete_from_firebase st q) p = download_from_firebase st p := by
  unfold download_from_firebase
  rw [delete_configured]
  split
  · exact storeGet_delete_ne st q p hne
  · rfl

theorem packLoop_configured (sid : String) (L : List (String × String)) :
    ∀ st : FirebaseState, (packLoop st sid L).2.configured = st.configured := by
  induction L with
  | nil => intro st; rfl
  | cons e rest ih =>
    intro st
    obtain ⟨fn, v⟩ := e
    simp only [packLoop]
    cases hdl : download_from_firebase st (get_user_audio_path sid fn) with
    | none => exact ih st
    | some d =>
      simp only []
      rw [ih, delete_configured]

theorem packLoop_store_none (sid p : String) (L : List (String × String)) :
    ∀ st : FirebaseState, storeGet st.store p = none →
      storeGet (packLoop st sid L).2.store p = none := by
  induction L with
  | nil => intro st h; exact h
  | cons e rest ih =>
    intro st h
    obtain ⟨fn, v⟩ := e
    simp only [packLoop]
    cases hdl : download_from_firebase st (get_user_audio_path sid fn) with
    | none => exact ih st h
    | some d =>
      exact ih _ (storeGet_delete_none st _ p h)

theorem packLoop_preserves (sid p : String) (L : List (String × String)) :
    ∀ st : FirebaseState, (∀ fn ∈ L.map Prod.fst, p ≠ get_user_audio_path sid fn) →
      storeGet (packLoop st sid L).2.store p = storeGet st.store p := by
  induction L with
  | nil => intro st _; rfl
  | cons e rest ih =>
    intro st h
    obtain ⟨fn, v⟩ := e
    have hhd : p ≠ get_user_audio_path sid fn := h fn (by simp)
    have htl : ∀ g ∈ rest.map Prod.fst, p ≠ get_user_audio_path sid g :=
      fun g hg => h g (by simp [hg])
    simp only [packLoop]
    cases hdl : download_from_firebase st (get_user_audio_path sid fn) with
    | none => exact ih st htl
    | some d =>
      rw [ih _ htl, storeGet_delete_ne _ _ _ (fun hq => hhd hq.symm)]

theorem packLoop_deletes (sid : String) (L : List (String × String)) :
    ∀ st : FirebaseState, st.configured = true →
      ∀ fn ∈ L.map Prod.fst,
        storeGet (packLoop st sid L).2.store (get_user_audio_path sid fn) = none := by
  induction L with
  | nil => intro st _ fn hfn; simp at hfn
  | cons e rest ih =>
    intro st hconf fn hfn
    obtain ⟨fn0, v⟩ := e
    simp only [packLoop]
    cases hdl : download_from_firebase st (get_user_audio_path sid fn0) with
    | none =>
      rw [List.map_cons] at hfn
      rcases List.mem_cons.mp hfn with hfn | hfn
      · subst hfn
        have hge : storeGet st.store (get_user_audio_path sid fn) = none := by
          unfold download_from_firebase at hdl
          rw [hconf] at hdl
          simpa using hdl
        exact packLoop_store_none sid _ rest st hge
      · exact ih st hconf fn hfn
    | some d =>
      rw [List.map_cons] at hfn
      rcases List.mem_cons.mp hfn with hfn | hfn
      · subst hfn
        have hge : storeGet (delete_from_firebase st
            (get_user_audio_path sid fn)).store (get_user_audio_path sid fn) = none := by
          unfold delete_from_firebase
          rw [hconf]
          simp [storeGet_storeDelete]
        exact packLoop_store_none sid _ rest _ hge
      · exact ih _ (by rw [delete_configured]; exact hconf) fn hfn

theorem packLoop_entries (sid : String) (L : List (String × String)) :
    ∀ st : FirebaseState, (L.map Prod.fst).Nodup →
      (packLoop st sid L).1 =
        L.filterMap (fun e =>
          (download_from_firebase st (get_user_audio_path sid e.1)).map
            (fun d => (e.1, ZipContent.data d))) := by
  induction L with
  | nil => intro st _; rfl
  | cons e rest ih =>
    intro st hnd
    obtain ⟨fn, v⟩ := e
    have hnotin : fn ∉ rest.map Prod.fst := (List.nodup_cons.mp (by simpa using hnd)).1
    have hndr : (rest.map Prod.fst).Nodup := (List.nodup_cons.mp (by simpa using hnd)).2
    simp only [packLoop]
    cases hdl : download_from_firebase st (get_user_audio_path sid fn) with
    | none =>
      rw [ih st hndr]
      simp [List.filterMap_cons, hdl]
    | some d =>
      rw [ih _ hndr]
      have hcongr : ∀ x ∈ rest,
          (download_from_firebase (delete_from_firebase st (get_user_audio_path sid fn))
            (get_user_audio_path sid x.1)).map (fun d => (x.1, ZipContent.data d)) =
          (download_from_firebase st (get_user_audio_path sid x.1)).map
            (fun d => (x.1, ZipContent.data d)) := by
        intro x hx
        have hxfn : x.1 ≠ fn := by
          intro hx1
          exact hnotin (hx1 ▸ List.mem_map_of_mem Prod.fst hx)
        rw [download_delete_ne _ _ _
          (fun hq => hxfn (get_user_audio_path_inj sid x.1 fn hq.symm))]
      rw [List.filterMap_congr hcongr]
      simp [List.filterMap_cons, hdl]

theorem load_configured (st : FirebaseState) (sid : String) (m : List (String × String))
    (hload : load_user_mappings st sid = some m) (hne : m ≠ []) :
    st.configured = true := by
  cases hconf : st.configured with
  | true => rfl
  | false =>
    unfold load_user_mappings download_from_firebase at hload
    rw [hconf] at hload
    simp at hload
    exact (hne hload).elim

theorem load_of_storeGet (st : FirebaseState) (sid : String)
    (m : List (String × String)) (hconf : st.configured = true)
    (hget : storeGet st.store (get_user_mapping_path sid) =
      some (BlobData.mappingJson m)) :
    load_user_mappings st sid = some m := by
  unfold load_user_mappings download_from_firebase
  rw [hconf]
  simp [hget]

theorem dictSet_dictSet (m : List (String × String)) (k v1 v2 : String) :
    dictSet (dictSet m k v1) k v2 = dictSet m k v2 := by
  induction m with
  | nil => simp [dictSet]
  | cons e rest ih =>
    obtain ⟨k1, w⟩ := e
    by_cases hk : k1 = k
    · subst hk
      simp [dictSet]
    · simp [dictSet, hk, ih]

theorem dictSet_filter (m : List (String × String)) (k v : String)
    (hnd : (m.map Prod.fst).Nodup) :
    (dictSet m k v).filter (fun e => e.1 == k) = [(k, v)] := by
  induction m with
  | nil => simp [dictSet]
  | cons e rest ih =>
    obtain ⟨k1, w⟩ := e
    rw [List.map_cons] at hnd
    have hnotin : k1 ∉ rest.map Prod.fst := (List.nodup_cons.mp hnd).1
    have hndr : (rest.map Prod.fst).Nodup := (List.nodup_cons.mp hnd).2
    by_cases hk : k1 = k
    · subst hk
      have hrest : rest.filter (fun e => e.1 == k1) = [] := by
        rw [List.filter_eq_nil_iff]
        intro e he hbeq
        exact hnotin (beq_iff_eq.mp hbeq ▸ List.mem_map_of_mem Prod.fst he)
      simp [dictSet, hrest]
    · have hk1 : (k1 == k) = false := beq_eq_false_iff_ne.mpr hk
      simp [dictSet, hk, hk1, ih hndr]

theorem upload_audio_eq (st : FirebaseState) (sid : String) (req : UploadAudioRequest)
    (m : List (String × String)) (hconf : st.configured = true)
    (hload : load_user_mappings st sid = some m) :
    upload_audio st sid req =
      (Response.ok "Audio received",
       ⟨true,
        storeSet
          (storeSet st.store (get_user_audio_path sid (audioFilename req.sentence_text))
            (BlobData.audio req.audio))
          (get_user_mapping_path sid)
          (BlobData.mappingJson
            (dictSet m (audioFilename req.sentence_text) req.sentence_text))⟩) := by
  have hap : get_user_audio_path sid (audioFilename req.sentence_text) ≠
      get_user_mapping_path sid := audio_path_ne_mapping_path sid req.sentence_text
  have hst1 : (upload_to_firebase st (BlobData.audio req.audio)
      (get_user_audio_path sid (audioFilename req.sentence_text))).2 =
      ⟨true, storeSet st.store
        (get_user_audio_path sid (audioFilename req.sentence_text))
        (BlobData.audio req.audio)⟩ := by
    unfold upload_to_firebase
    rw [hconf]
    simp
  have hget0 : storeGet (storeSet st.store
      (get_user_audio_path sid (audioFilename req.sentence_text))
      (BlobData.audio req.audio)) (get_user_mapping_path sid) =
      storeGet st.store (get_user_mapping_path sid) := by
    rw [storeGet_storeSet, if_neg hap]
  have hload1 : load_user_mappings
      (⟨true, storeSet st.store
        (get_user_audio_path sid (audioFilename req.sentence_text))
        (BlobData.audio req.audio)⟩ : FirebaseState) sid = some m := by
    unfold load_user_mappings download_from_firebase at hload ⊢
    rw [hconf] at hload
    simpa [hget0] using hload
  unfold upload_audio
  simp only [hst1, hload1]
  unfold save_user_mappings
  simp

theorem download_recordings_of_empty (st : FirebaseState) (sid : String)
    (hload : load_user_mappings st sid = some []) :
    download_recordings st sid = (Response.notFound "No recordings found", st) := by
  unfold download_recordings
  rw [hload]
  rfl

theorem download_recordings_eq (st : FirebaseState) (sid : String)
    (m : List (String × String)) (hload : load_user_mappings st sid = some m)
    (hne : m ≠ []) :
    download_recordings st sid =
      (Response.file "recordings.zip"
        ((packLoop st sid m).1 ++ [("mapping.tsv", ZipContent.text (tsvOfMappings m))]),
       delete_from_firebase (packLoop st sid m).2 (get_user_mapping_path sid)) := by
  unfold download_recordings
  rw [hload]
  simp [List.isEmpty_iff, hne]

theorem filter_map_comm (l : List (List Char)) (f : List Char → List Char)
    (p : List Char → Bool) :
    (l.filter (fun s => p (f s))).map f = (l.map f).filter p := by
  induction l with
  | nil => rfl
  | cons a t ih =>
    by_cases h : p (f a) <;> simp [h, ih]

theorem pyStrip_eq (l : List Char) :
    pyStrip l = List.rdropWhile isPyWs (List.dropWhile isPyWs l) := rfl

theorem dropWhile_eq_self_of_pre {p : Char → Bool} {r m : List Char}
    (hpre : r <+: m) (hm : List.dropWhile p m = m) : List.dropWhile p r = r := by
  cases r with
  | nil => rfl
  | cons c r2 =>
    obtain ⟨t, ht⟩ := hpre
    have hc : p c = false := by
      cases hpc : p c with
      | false => rfl
      | true =>
        rw [← ht] at hm
        rw [List.cons_append, List.dropWhile_cons_of_pos hpc] at hm
        have hle := (List.dropWhile_sublist (p := p) (l := r2 ++ t)).length_le
        have h1 : (List.dropWhile p (r2 ++ t)).length = (c :: (r2 ++ t)).length :=
          congrArg List.length hm
        rw [List.length_cons] at h1
        omega
    rw [List.dropWhile_cons_of_neg (by simp [hc])]

theorem pyStrip_dropWhile (l : List Char) :
    List.dropWhile isPyWs (pyStrip l) = pyStrip l :=
  dropWhile_eq_self_of_pre (List.rdropWhile_prefix isPyWs (l.dropWhile isPyWs))
    (List.dropWhile_idempotent isPyWs l)

theorem pyStrip_idempotent (l : List Char) : pyStrip (pyStrip l) = pyStrip l := by
  rw [pyStrip_eq (pyStrip l), pyStrip_dropWhile, pyStrip_eq l,
    List.rdropWhile_idempotent]

theorem upload_eq_map_filter (text : List Char) :
    upload text = ((splitNl text).map pyStrip).filter (fun t => t ≠ []) := by
  unfold upload
  exact filter_map_comm (splitNl text) pyStrip (fun t => decide (t ≠ []))

theorem upload_mem (text : List Char) :
    ∀ t ∈ upload text, t ≠ [] ∧ pyStrip t = t := by
  intro t ht
  rw [upload_eq_map_filter] at ht
  have hmem := List.mem_of_mem_filter ht
  have hprop := List.of_mem_filter ht
  have hne : t ≠ [] := by simpa using hprop
  obtain ⟨s, _, hts⟩ := List.mem_map.mp hmem
  refine ⟨hne, ?_⟩
  rw [← hts, pyStrip_idempotent]

theorem intercalate_go_append (x : String) (y s : String) (as : List String) :
    String.intercalate.go (x ++ y) s as = x ++ String.intercalate.go y s as := by
  induction as generalizing y with
  | nil => rfl
  | cons a as ih =>
    show String.intercalate.go (x ++ y ++ s ++ a) s as = _
    rw [String.append_assoc x y s, String.append_assoc x (y ++ s) a, ih]
    rfl

theorem tsv_intercalate (m : List (String × String)) (hne : m ≠ []) :
    tsvOfMappings m =
      String.intercalate "\n"
        ("audio_filename\tsentence" :: m.map (fun e => e.1 ++ "\t" ++ e.2)) := by
  obtain ⟨r, rs, hrr⟩ : ∃ r rs, m.map (fun e => e.1 ++ "\t" ++ e.2) = r :: rs := by
    cases m with
    | nil => exact absurd rfl hne
    | cons e m2 => exact ⟨_, _, rfl⟩
  unfold tsvOfMappings
  rw [hrr]
  show ("audio_filename\tsentence\n" : String) ++ String.intercalate.go r "\n" rs =
    String.intercalate.go "audio_filename\tsentence" "\n" (r :: rs)
  rw [← intercalate_go_append "audio_filename\tsentence\n" r "\n" rs]
  rfl

theorem load_empty_of_absent (st : FirebaseState) (sid : String)
    (h : storeGet st.store (get_user_mapping_path sid) = none) :
    load_user_mappings st sid = some [] := by
  unfold load_user_mappings download_from_firebase
  cases hconf : st.configured with
  | false => simp
  | true => simp [h]

/-! ### The claims -/

/-- C8 counterexample: the persisted mapping blob does not live at the path
`sessionId ++ "/mapping"`: at session id `abc123` the derived mapping path is
`abc123/mapping.json`, which differs from `abc123/mapping`. -/
theorem mapping_path_counterexample :
    get_user_mapping_path "abc123" = "abc123/mapping.json" ∧
    get_user_mapping_path "abc123" ≠ "abc123/mapping" := by
  constructor
  · rfl
  · decide

/-- C8 (amended): for every sessionId and filename the storage paths used by
all operations are `audioPath sid fn = sid ++ "/" ++ fn` and
`mappingPath sid = sid ++ "/mapping.json"`; the persisted mapping blob is
stored by `save_user_mappings` at exactly `sid ++ "/mapping.json"`. -/
theorem storage_paths (sid fn : String) (st : FirebaseState)
    (ms : List (String × String)) (hconf : st.configured = true) :
    get_user_audio_path sid fn = sid ++ "/" ++ fn ∧
    get_user_mapping_path sid = sid ++ "/mapping.json" ∧
    storeGet (save_user_mappings st sid ms).store (sid ++ "/mapping.json") =
      some (BlobData.mappingJson ms) := by
  refine ⟨rfl, rfl, ?_⟩
  unfold save_user_mappings
  rw [hconf]
  simp only [if_true]
  rw [show sid ++ "/mapping.json" = get_user_mapping_path sid from rfl,
    storeGet_storeSet]
  simp

/-- C8 witness: the amended path facts evaluated at a concrete session. -/
theorem storage_paths_witness :
    get_user_audio_path "u1" "a.webm" = "u1" ++ "/" ++ "a.webm" ∧
    get_user_mapping_path "u1" = "u1" ++ "/mapping.json" ∧
    storeGet (save_user_mappings ⟨true, []⟩ "u1" [("a.webm", "Hi")]).store
      ("u1" ++ "/mapping.json") = some (BlobData.mappingJson [("a.webm", "Hi")]) :=
  storage_paths "u1" "a.webm" ⟨true, []⟩ [("a.webm", "Hi")] rfl

/-- C9: the recording handler never reads `sentence_idx`: two requests that
agree on the audio bytes and sentence text but differ in `sentence_idx`
produce the same response and the same stored state. -/
theorem upload_audio_ignores_sentence_idx (st : FirebaseState) (sid : String)
    (audio : Bytes) (sentence : String) (idx1 idx2 : Option String) :
    upload_audio st sid ⟨audio, sentence, idx1⟩ =
      upload_audio st sid ⟨audio, sentence, idx2⟩ := rfl

/-- C2 (code bug evidence): with no bucket configured the blob write fails
(`upload_to_firebase` returns `false`), yet `upload_audio` ignores the flag
and still answers with the plain success response `Audio received` instead of
failing with a storage error; the state is unchanged. -/
theorem upload_audio_success_despite_failed_write :
    upload_to_firebase ⟨false, []⟩ (BlobData.audio [0, 1])
        (get_user_audio_path "sid0" (audioFilename "Hello.")) =
      (false, ⟨false, []⟩) ∧
    (upload_audio ⟨false, []⟩ "sid0" ⟨[0, 1], "Hello.", none⟩).1 =
      Response.ok "Audio received" ∧
    (upload_audio ⟨false, []⟩ "sid0" ⟨[0, 1], "Hello.", none⟩).2 = ⟨false, []⟩ :=
  ⟨rfl, rfl, rfl⟩

/-- C10: with no bucket configured (`bucket is None`), `upload_audio` still
returns the success response `Audio received` while persisting nothing (the
state is unchanged), and `download_recordings` returns the 404
`No recordings found` response for every session, also without state
change. -/
theorem unconfigured_bucket_behavior (st : FirebaseState) (sid : String)
    (req : UploadAudioRequest) (hconf : st.configured = false) :
    (upload_audio st sid req).1 = Response.ok "Audio received" ∧
    (upload_audio st sid req).2 = st ∧
    (download_recordings st sid).1 = Response.notFound "No recordings found" ∧
    (download_recordings st sid).2 = st := by
  have hload : load_user_mappings st sid = some [] := by
    unfold load_user_mappings download_from_firebase
    rw [hconf]
    rfl
  have hup : (upload_to_firebase st (BlobData.audio req.audio)
      (get_user_audio_path sid (audioFilename req.sentence_text))).2 = st := by
    unfold upload_to_firebase
    rw [hconf]
    rfl
  have hsave : save_user_mappings st sid
      (dictSet [] (audioFilename req.sentence_text) req.sentence_text) = st := by
    unfold save_user_mappings
    rw [hconf]
    rfl
  have hdr := download_recordings_of_empty st sid hload
  refine ⟨?_, ?_, ?_, ?_⟩
  · unfold upload_audio
    simp only [hup, hload]
  · unfold upload_audio
    simp only [hup, hload, hsave]
  · rw [hdr]
  · rw [hdr]

/-- C10 witness: the unconfigured-bucket behavior at a concrete state. -/
theorem unconfigured_bucket_behavior_witness :
    (upload_audio ⟨false, [("x", BlobData.audio [7])]⟩ "s" ⟨[1], "Hi", some "0"⟩).1 =
      Response.ok "Audio received" ∧
    (upload_audio ⟨false, [("x", BlobData.audio [7])]⟩ "s" ⟨[1], "Hi", some "0"⟩).2 =
      ⟨false, [("x", BlobData.audio [7])]⟩ ∧
    (download_recordings ⟨false, [("x", BlobData.audio [7])]⟩ "s").1 =
      Response.notFound "No recordings found" ∧
    (download_recordings ⟨false, [("x", BlobData.audio [7])]⟩ "s").2 =
      ⟨false, [("x", BlobData.audio [7])]⟩ :=
  unconfigured_bucket_behavior ⟨false, [("x", BlobData.audio [7])]⟩ "s"
    ⟨[1], "Hi", some "0"⟩ rfl

/-- C3: the `/upload-sentences` handler returns exactly the non-blank,
whitespace-trimmed lines of the input in their original order — no blank
element and no leading or trailing whitespace ever appears in the output —
and on the input `"Hello.\n\nWorld.\n  \n"` it returns exactly
`["Hello.", "World."]`. -/
theorem upload_sentences_normalizes :
    (∀ text : List Char,
      upload text = ((splitNl text).map pyStrip).filter (fun t => t ≠ []) ∧
      ∀ t ∈ upload text, t ≠ [] ∧ pyStrip t = t) ∧
    upload ("Hello.\n\nWorld.\n  \n".data) = ["Hello.".data, "World.".data] := by
  refine ⟨fun text => ⟨upload_eq_map_filter text, upload_mem text⟩, ?_⟩
  decide

/-- C3 witness: the normalization facts evaluated on the concrete scenario
input and on its first returned element. -/
theorem upload_sentences_normalizes_witness :
    upload ("Hello.\n\nWorld.\n  \n".data) = ["Hello.".data, "World.".data] ∧
    "Hello.".data ≠ [] ∧ pyStrip "Hello.".data = "Hello.".data :=
  ⟨upload_sentences_normalizes.2,
   (upload_sentences_normalizes.1 ("Hello.\n\nWorld.\n  \n".data)).2
     ("Hello.".data) (by decide)⟩

/-- C5: `download_recordings` answers the 404 `No recordings found` response
exactly when the loaded mapping for the session is empty, and in that case it
leaves the state unchanged, so a second call returns `No recordings found`
again. -/
theorem download_notFound_iff_empty (st : FirebaseState) (sid : String)
    (ms : List (String × String)) (hload : load_user_mappings st sid = some ms) :
    ((download_recordings st sid).1 = Response.notFound "No recordings found" ↔
      ms = []) ∧
    (ms = [] →
      (download_recordings st sid).2 = st ∧
      (download_recordings (download_recordings st sid).2 sid).1 =
        Response.notFound "No recordings found") := by
  by_cases hms : ms = []
  · subst hms
    have hdr := download_recordings_of_empty st sid hload
    have hsnd : (download_recordings st sid).2 = st := by rw [hdr]
    refine ⟨⟨fun _ => rfl, fun _ => by rw [hdr]⟩, fun _ => ⟨hsnd, ?_⟩⟩
    rw [hsnd, hdr]
  · have heq := download_recordings_eq st sid ms hload hms
    refine ⟨⟨fun hc => ?_, fun hc => absurd hc hms⟩, fun hc => absurd hc hms⟩
    rw [heq] at hc
    simp at hc

/-- C5 witness: the idempotent-on-empty behavior at a concrete session with
no recordings. -/
theorem download_notFound_iff_empty_witness :
    (((download_recordings ⟨true, []⟩ "s").1 =
        Response.notFound "No recordings found") ↔
      ([] : List (String × String)) = []) ∧
    (([] : List (String × String)) = [] →
      (download_recordings ⟨true, []⟩ "s").2 = ⟨true, []⟩ ∧
      (download_recordings (download_recordings ⟨true, []⟩ "s").2 "s").1 =
        Response.notFound "No recordings found") :=
  download_notFound_iff_empty ⟨true, []⟩ "s" [] rfl

/-- C6: on a non-empty mapping the archive contains an entry named
`mapping.tsv` whose text is the header line `audio_filename<TAB>sentence`
followed by one `filename<TAB>sentence` row per mapping entry, joined by
newlines in the mapping's insertion order; the number of manifest rows equals
the number of mapping entries at the start of packaging. -/
theorem download_recordings_manifest (st : FirebaseState) (sid : String)
    (m : List (String × String)) (hload : load_user_mappings st sid = some m)
    (hne : m ≠ []) :
    (download_recordings st sid).1 =
      Response.file "recordings.zip"
        ((packLoop st sid m).1 ++
          [("mapping.tsv", ZipContent.text
            (String.intercalate "\n"
              ("audio_filename\tsentence" ::
                m.map (fun e => e.1 ++ "\t" ++ e.2))))]) ∧
    (m.map (fun e => e.1 ++ "\t" ++ e.2)).length = m.length := by
  have heq := download_recordings_eq st sid m hload hne
  constructor
  · have h1 : (download_recordings st sid).1 =
        Response.file "recordings.zip"
          ((packLoop st sid m).1 ++
            [("mapping.tsv", ZipContent.text (tsvOfMappings m))]) := by
      rw [heq]
    rw [h1, tsv_intercalate m hne]
  · simp

/-- C6 witness: the manifest shape at a concrete one-entry session. -/
theorem download_recordings_manifest_witness :
    (download_recordings
        ⟨true, [("s/mapping.json", BlobData.mappingJson [("f.webm", "Hello")]),
                ("s/f.webm", BlobData.audio [1, 2, 3])]⟩ "s").1 =
      Response.file "recordings.zip"
        ((packLoop
            ⟨true, [("s/mapping.json", BlobData.mappingJson [("f.webm", "Hello")]),
                    ("s/f.webm", BlobData.audio [1, 2, 3])]⟩ "s"
            [("f.webm", "Hello")]).1 ++
          [("mapping.tsv", ZipContent.text
            (String.intercalate "\n"
              ("audio_filename\tsentence" ::
                ([("f.webm", "Hello")].map (fun e => e.1 ++ "\t" ++ e.2)))))]) ∧
    (([("f.webm", "Hello")].map (fun e => e.1 ++ "\t" ++ e.2)).length =
      ([("f.webm", "Hello")] : List (String × String)).length) :=
  download_recordings_manifest
    ⟨true, [("s/mapping.json", BlobData.mappingJson [("f.webm", "Hello")]),
            ("s/f.webm", BlobData.audio [1, 2, 3])]⟩ "s"
    [("f.webm", "Hello")] rfl (by decide)

/-- C7: during packaging, a mapping entry whose blob is present is written
into the archive under its filename and the blob is then deleted from the
store; an entry whose blob is absent is skipped without aborting — the call
still returns the archive, whose audio entries are exactly the blobs present
at the start, in iteration order. -/
theorem download_recordings_skips_missing (st : FirebaseState) (sid : String)
    (m : List (String × String)) (hload : load_user_mappings st sid = some m)
    (hne : m ≠ []) (hnd : (m.map Prod.fst).Nodup) :
    (download_recordings st sid).1 =
      Response.file "recordings.zip"
        (m.filterMap (fun e =>
            (download_from_firebase st (get_user_audio_path sid e.1)).map
              (fun d => (e.1, ZipContent.data d))) ++
          [("mapping.tsv", ZipContent.text (tsvOfMappings m))]) ∧
    (∀ e ∈ m, ∀ d, download_from_firebase st (get_user_audio_path sid e.1) = some d →
      (e.1, ZipContent.data d) ∈ (packLoop st sid m).1 ∧
      storeGet (download_recordings st sid).2.store
        (get_user_audio_path sid e.1) = none) ∧
    (∀ e ∈ m, download_from_firebase st (get_user_audio_path sid e.1) = none →
      ∀ c, (e.1, c) ∉ (packLoop st sid m).1) := by
  have hconf := load_configured st sid m hload hne
  have heq := download_recordings_eq st sid m hload hne
  have hent := packLoop_entries sid m st hnd
  refine ⟨?_, ?_, ?_⟩
  · have h1 : (download_recordings st sid).1 =
        Response.file "recordings.zip"
          ((packLoop st sid m).1 ++
            [("mapping.tsv", ZipContent.text (tsvOfMappings m))]) := by
      rw [heq]
    rw [h1, hent]
  · intro e he d hd
    constructor
    · rw [hent]
      exact List.mem_filterMap.mpr ⟨e, he, by rw [hd]; rfl⟩
    · have hfr : storeGet (packLoop st sid m).2.store
          (get_user_audio_path sid e.1) = none :=
        packLoop_deletes sid m st hconf e.1 (List.mem_map_of_mem Prod.fst he)
      have h2 : (download_recordings st sid).2 =
          delete_from_firebase (packLoop st sid m).2 (get_user_mapping_path sid) := by
        rw [heq]
      rw [h2]
      exact storeGet_delete_none _ _ _ hfr
  · intro e _ hd c hc
    rw [hent] at hc
    obtain ⟨x, hx, hxc⟩ := List.mem_filterMap.mp hc
    cases hdx : download_from_firebase st (get_user_audio_path sid x.1) with
    | none =>
      rw [hdx] at hxc
      exact Option.noConfusion hxc
    | some d =>
      rw [hdx] at hxc
      have hxc2 : some (x.1, ZipContent.data d) = some (e.1, c) := hxc
      have hpair : (x.1, ZipContent.data d) = (e.1, c) := Option.some.inj hxc2
      have h0 := congrArg Prod.fst hpair
      have hx1 : x.1 = e.1 := h0
      rw [hx1, hd] at hdx
      exact Option.noConfusion hdx

/-- C7 witness: one present blob is archived and deleted, one absent blob is
skipped, at a concrete two-entry session. -/
theorem download_recordings_skips_missing_witness :
    (download_recordings
        ⟨true, [("s/mapping.json",
                 BlobData.mappingJson [("a.webm", "A"), ("b.webm", "B")]),
                ("s/a.webm", BlobData.audio [1])]⟩ "s").1 =
      Response.file "recordings.zip"
        (([("a.webm", "A"), ("b.webm", "B")].filterMap (fun e =>
            (download_from_firebase
              ⟨true, [("s/mapping.json",
                       BlobData.mappingJson [("a.webm", "A"), ("b.webm", "B")]),
                      ("s/a.webm", BlobData.audio [1])]⟩
              (get_user_audio_path "s" e.1)).map
              (fun d => (e.1, ZipContent.data d)))) ++
          [("mapping.tsv", ZipContent.text
            (tsvOfMappings [("a.webm", "A"), ("b.webm", "B")]))]) ∧
    (("a.webm", ZipContent.data (BlobData.audio [1])) ∈
      (packLoop
        ⟨true, [("s/mapping.json",
                 BlobData.mappingJson [("a.webm", "A"), ("b.webm", "B")]),
                ("s/a.webm", BlobData.audio [1])]⟩ "s"
        [("a.webm", "A"), ("b.webm", "B")]).1 ∧
     storeGet (download_recordings
        ⟨true, [("s/mapping.json",
                 BlobData.mappingJson [("a.webm", "A"), ("b.webm", "B")]),
                ("s/a.webm", BlobData.audio [1])]⟩ "s").2.store
        (get_user_audio_path "s" "a.webm") = none) ∧
    ("b.webm", ZipContent.data (BlobData.audio [9])) ∉
      (packLoop
        ⟨true, [("s/mapping.json",
                 BlobData.mappingJson [("a.webm", "A"), ("b.webm", "B")]),
                ("s/a.webm", BlobData.audio [1])]⟩ "s"
        [("a.webm", "A"), ("b.webm", "B")]).1 := by
  have h := download_recordings_skips_missing
    ⟨true, [("s/mapping.json",
             BlobData.mappingJson [("a.webm", "A"), ("b.webm", "B")]),
            ("s/a.webm", BlobData.audio [1])]⟩ "s"
    [("a.webm", "A"), ("b.webm", "B")] rfl (by decide) (by decide)
  refine ⟨h.1, ?_, ?_⟩
  · exact h.2.1 ("a.webm", "A") (by decide) (BlobData.audio [1]) (by decide)
  · exact h.2.2 ("b.webm", "B") (by decide) (by decide) (ZipContent.data (BlobData.audio [9]))

/-- C1: packaging is destructive on success.  For a session whose loaded
mapping is non-empty (and whose stored session audio blobs are all referenced
by that mapping — the invariant maintained by `upload_audio`), the call
returns the archive, and afterwards no mapping blob and no audio blob remain
for the session: a repeated call returns the 404 `No recordings found`
response and a subsequent load of the mapping yields the empty mapping. -/
theorem download_recordings_destructive (st : FirebaseState) (sid : String)
    (m : List (String × String)) (hload : load_user_mappings st sid = some m)
    (hne : m ≠ [])
    (hcov : ∀ fn, fn ∉ m.map Prod.fst → fn ≠ "mapping.json" →
      storeGet st.store (get_user_audio_path sid fn) = none) :
    (download_recordings st sid).1 =
      Response.file "recordings.zip"
        ((packLoop st sid m).1 ++
          [("mapping.tsv", ZipContent.text (tsvOfMappings m))]) ∧
    load_user_mappings (download_recordings st sid).2 sid = some [] ∧
    (download_recordings (download_recordings st sid).2 sid).1 =
      Response.notFound "No recordings found" ∧
    storeGet (download_recordings st sid).2.store (get_user_mapping_path sid) =
      none ∧
    ∀ fn, storeGet (download_recordings st sid).2.store
      (get_user_audio_path sid fn) = none := by
  have hconf := load_configured st sid m hload hne
  have heq := download_recordings_eq st sid m hload hne
  have hsnd : (download_recordings st sid).2 =
      delete_from_firebase (packLoop st sid m).2 (get_user_mapping_path sid) := by
    rw [heq]
  have hconf1 : (packLoop st sid m).2.configured = true := by
    rw [packLoop_configured]
    exact hconf
  have hmapnone : storeGet (delete_from_firebase (packLoop st sid m).2
      (get_user_mapping_path sid)).store (get_user_mapping_path sid) = none := by
    unfold delete_from_firebase
    rw [hconf1]
    simp [storeGet_storeDelete]
  have hload2 : load_user_mappings (download_recordings st sid).2 sid = some [] := by
    rw [hsnd]
    exact load_empty_of_absent _ sid hmapnone
  refine ⟨by rw [heq], hload2, ?_, by rw [hsnd]; exact hmapnone, ?_⟩
  · rw [download_recordings_of_empty _ sid hload2]
  · intro fn
    rw [hsnd]
    by_cases hmem : fn ∈ m.map Prod.fst
    · exact storeGet_delete_none _ _ _ (packLoop_deletes sid m st hconf fn hmem)
    · by_cases hmj : fn = "mapping.json"
      · subst hmj
        rw [← mapping_path_as_audio_path]
        exact hmapnone
      · exact storeGet_delete_none _ _ _
          (packLoop_store_none sid _ m st (hcov fn hmem hmj))

/-- C1 witness: the destructive-once behavior at a concrete one-recording
session, checked for the mapping blob and for two audio filenames. -/
theorem download_recordings_destructive_witness :
    load_user_mappings
      (download_recordings
        ⟨true, [("s/mapping.json", BlobData.mappingJson [("f.webm", "Hello")]),
                ("s/f.webm", BlobData.audio [1, 2, 3])]⟩ "s").2 "s" = some [] ∧
    (download_recordings
      (download_recordings
        ⟨true, [("s/mapping.json", BlobData.mappingJson [("f.webm", "Hello")]),
                ("s/f.webm", BlobData.audio [1, 2, 3])]⟩ "s").2 "s").1 =
      Response.notFound "No recordings found" ∧
    storeGet (download_recordings
        ⟨true, [("s/mapping.json", BlobData.mappingJson [("f.webm", "Hello")]),
                ("s/f.webm", BlobData.audio [1, 2, 3])]⟩ "s").2.store
      (get_user_mapping_path "s") = none ∧
    storeGet (download_recordings
        ⟨true, [("s/mapping.json", BlobData.mappingJson [("f.webm", "Hello")]),
                ("s/f.webm", BlobData.audio [1, 2, 3])]⟩ "s").2.store
      (get_user_audio_path "s" "f.webm") = none ∧
    storeGet (download_recordings
        ⟨true, [("s/mapping.json", BlobData.mappingJson [("f.webm", "Hello")]),
                ("s/f.webm", BlobData.audio [1, 2, 3])]⟩ "s").2.store
      (get_user_audio_path "s" "other.webm") = none := by
  have hcov : ∀ fn, fn ∉ ([("f.webm", "Hello")].map Prod.fst) →
      fn ≠ "mapping.json" →
      storeGet [("s/mapping.json", BlobData.mappingJson [("f.webm", "Hello")]),
                ("s/f.webm", BlobData.audio [1, 2, 3])]
        (get_user_audio_path "s" fn) = none := by
    intro fn h1 h2
    have e1 : ("s/mapping.json" : String) ≠ get_user_audio_path "s" fn := by
      intro h
      have h3 : get_user_audio_path "s" "mapping.json" = get_user_audio_path "s" fn := h
      exact h2 (get_user_audio_path_inj "s" "mapping.json" fn h3).symm
    have e2 : ("s/f.webm" : String) ≠ get_user_audio_path "s" fn := by
      intro h
      have h3 : get_user_audio_path "s" "f.webm" = get_user_audio_path "s" fn := h
      have h4 : fn = "f.webm" := (get_user_audio_path_inj "s" "f.webm" fn h3).symm
      exact h1 (by rw [h4]; exact List.mem_singleton.mpr rfl)
    simp [storeGet, e1, e2]
  have h := download_recordings_destructive
    ⟨true, [("s/mapping.json", BlobData.mappingJson [("f.webm", "Hello")]),
            ("s/f.webm", BlobData.audio [1, 2, 3])]⟩ "s"
    [("f.webm", "Hello")] rfl (by decide) hcov
  exact ⟨h.2.1, h.2.2.1, h.2.2.2.1, h.2.2.2.2 "f.webm", h.2.2.2.2 "other.webm"⟩

/-- C4: the audio filename derived by `upload_audio` is
`hex(MD5(sentence)) ++ ".webm"`, a pure function of the sentence text alone;
recording the same sentence twice therefore reuses the same filename, and
after the second recording the session's mapping holds exactly one entry for
that filename, carrying the sentence — the second write replaced the
first. -/
theorem audio_filename_last_write_wins (st : FirebaseState) (sid s : String)
    (a1 a2 : Bytes) (i1 i2 : Option String) (m0 : List (String × String))
    (hconf : st.configured = true)
    (hload : load_user_mappings st sid = some m0)
    (hnd : (m0.map Prod.fst).Nodup) :
    audioFilename s = md5hex s ++ ".webm" ∧
    load_user_mappings
        (upload_audio (upload_audio st sid ⟨a1, s, i1⟩).2 sid ⟨a2, s, i2⟩).2 sid =
      some (dictSet m0 (audioFilename s) s) ∧
    (dictSet m0 (audioFilename s) s).filter (fun e => e.1 == audioFilename s) =
      [(audioFilename s, s)] := by
  have h1 := upload_audio_eq st sid ⟨a1, s, i1⟩ m0 hconf hload
  have hst1 : (upload_audio st sid ⟨a1, s, i1⟩).2 =
      (⟨true, storeSet
        (storeSet st.store (get_user_audio_path sid (audioFilename s))
          (BlobData.audio a1))
        (get_user_mapping_path sid)
        (BlobData.mappingJson (dictSet m0 (audioFilename s) s))⟩ : FirebaseState) := by
    rw [h1]
  have hload1 : load_user_mappings (upload_audio st sid ⟨a1, s, i1⟩).2 sid =
      some (dictSet m0 (audioFilename s) s) := by
    rw [hst1]
    apply load_of_storeGet _ _ _ rfl
    rw [storeGet_storeSet]
    simp
  have h2 := upload_audio_eq (upload_audio st sid ⟨a1, s, i1⟩).2 sid ⟨a2, s, i2⟩
    (dictSet m0 (audioFilename s) s) (by rw [hst1]) hload1
  refine ⟨rfl, ?_, dictSet_filter m0 (audioFilename s) s hnd⟩
  have hst2 : (upload_audio (upload_audio st sid ⟨a1, s, i1⟩).2 sid ⟨a2, s, i2⟩).2 =
      (⟨true, storeSet
        (storeSet ((upload_audio st sid ⟨a1, s, i1⟩).2).store
          (get_user_audio_path sid (audioFilename s)) (BlobData.audio a2))
        (get_user_mapping_path sid)
        (BlobData.mappingJson
          (dictSet (dictSet m0 (audioFilename s) s) (audioFilename s) s))⟩ :
        FirebaseState) := by
    rw [h2]
  rw [hst2, dictSet_dictSet]
  apply load_of_storeGet _ _ _ rfl
  rw [storeGet_storeSet]
  simp

/-- C4 witness: recording `Hello.` twice at a concrete session leaves a
single mapping entry for the derived filename. -/
theorem audio_filename_last_write_wins_witness :
    audioFilename "Hello." = md5hex "Hello." ++ ".webm" ∧
    load_user_mappings
        (upload_audio (upload_audio ⟨true, []⟩ "s" ⟨[1], "Hello.", none⟩).2 "s"
          ⟨[2], "Hello.", some "7"⟩).2 "s" =
      some (dictSet [] (audioFilename "Hello.") "Hello.") ∧
    (dictSet [] (audioFilename "Hello.") "Hello.").filter
        (fun e => e.1 == audioFilename "Hello.") =
      [(audioFilename "Hello.", "Hello.")] :=
  audio_filename_last_write_wins ⟨true, []⟩ "s" "Hello." [1] [2] none (some "7")
    [] rfl rfl (by simp)

end App
